import Mathlib

set_option autoImplicit false

/-!
# Charlieplexed LED pendant: scanner, PWM masks and pulse animation

A shallow embedding of `src/code/src/main.c`.  The interrupt handler and the
functions it calls become functions on an explicit `State`; the memory-mapped
pin registers `DDRB`/`PORTB` are the `Regs` part of the state.  Unsigned
machine arithmetic is `Nat` with an explicit modulus, the `int8_t` locals of
`animPulse` are `Int` with an explicit wrap.  A table lookup outside the table
is undefined in C; here it is `none`.
-/

namespace Pendant

/-! ## Constants and tables -/

/-- Number of animation programs, `#define NumAnimations 1`. -/
def NumAnimations : Nat := 1

/-- Number of LEDs, `#define NumLEDs 6`. -/
def NumLEDs : Nat := 6

/-- Pin mask `#define A 0x01`. -/
def A : Nat := 0x01

/-- Pin mask `#define B 0x02`. -/
def B : Nat := 0x02

/-- Pin mask `#define C 0x04`. -/
def C : Nat := 0x04

/-- The three shared pins, in the order of their definition. -/
def pins : List Nat := [A, B, C]

/-- The macro `Bit( n )`, that is `1 << n`, as the exact value of the shift.
The handler applies it to `curBit`, which it keeps below 9. -/
def Bit (n : Nat) : Nat := 1 <<< n

/-- The macro `ArraySize( a )`: the number of elements of a table. -/
def ArraySize {α : Type} (a : List α) : Nat := a.length

/-- The `LEDPin` struct: two 4-bit fields. -/
structure LEDPin where
  anodePin : Nat
  cathodePin : Nat
deriving DecidableEq, Repr

/-- The macro `MakeLED( anode, cathode )`; each field keeps 4 bits. -/
def MakeLED (anode cathode : Nat) : LEDPin :=
  { anodePin := anode % 16, cathodePin := cathode % 16 }

/-- The topology table `ledDefs`. -/
def ledDefs : List LEDPin :=
  [ MakeLED A B,    -- LED0
    MakeLED B A,    -- LED1
    MakeLED A C,    -- LED2
    MakeLED C A,    -- LED3
    MakeLED B C,    -- LED4
    MakeLED C B ]   -- LED5

/-- The table `brightnessMasks[ 9 ]`. -/
def brightnessMasks : List Nat :=
  [ 0b00000000,
    0b00000001,
    0b00000011,
    0b00000111,
    0b00001111,
    0b00011111,
    0b00111111,
    0b01111111,
    0b11111111 ]

/-- The frame table `data` local to `animPulse`. -/
def data : List Nat :=
  [ 0, 0, 0,
    0, 0, 0,
    1, 1, 1,
    2, 2, 2,
    3, 3, 3,
    4, 4, 4,
    5, 5, 5,
    6, 6, 6,
    7, 7, 7,
    8, 8, 8,
    7, 7, 7,
    6, 6, 6,
    5, 5, 5,
    4, 4, 4,
    3, 3, 3,
    2, 2, 2,
    1, 1, 1,
    0, 0, 0 ]

/-- `const int frames = ArraySize( data )`. -/
def frames : Int := (ArraySize data : Nat)

/-! ## State -/

/-- The two pin registers: `LEDDIR` is `DDRB`, `LEDPORT` is `PORTB`. -/
structure Regs where
  LEDDIR : Nat
  LEDPORT : Nat
deriving DecidableEq, Repr

/-- All mutable state the interrupt handler touches.  `curLED` and `curBit`
are the handler's static locals, `i` is the static local of `animPulse`.
`animCalls` is a ghost counter of the calls of `animPulse`; no expression of
the program reads it. -/
structure State where
  regs : Regs
  curLED : Nat
  curBit : Nat
  tickCount : Nat
  i : Nat
  ledValues : List Nat
  animCalls : Nat
deriving DecidableEq, Repr

/-- The state after static zero-initialisation and register reset. -/
def init : State :=
  { regs := { LEDDIR := 0, LEDPORT := 0 }
    curLED := 0
    curBit := 0
    tickCount := 0
    i := 0
    ledValues := [0, 0, 0, 0, 0, 0]
    animCalls := 0 }

/-! ## Pin driver -/

/-- The register states after each of the four writes of `turnOnLED`, in
program order, for the table entry `led`. -/
def turnOnLEDWrites (led : LEDPin) (r : Regs) : List Regs :=
  let r1 := { r with LEDDIR := 0 }
  let r2 := { r1 with LEDPORT := 0 }
  let r3 := { r2 with LEDPORT := led.anodePin % 256 }
  let r4 := { r3 with LEDDIR := (led.anodePin ||| led.cathodePin) % 256 }
  [r1, r2, r3, r4]

/-- The function `turnOnLED( ledNo )`. -/
def turnOnLED (ledNo : Nat) (r : Regs) : Option Regs :=
  match ledDefs[ledNo]? with
  | none => none
  | some led =>
    let r1 := { r with LEDDIR := 0 }
    let r2 := { r1 with LEDPORT := 0 }
    let r3 := { r2 with LEDPORT := led.anodePin % 256 }
    some { r3 with LEDDIR := (led.anodePin ||| led.cathodePin) % 256 }

/-- The function `turnOffLEDs( )`. -/
def turnOffLEDs (r : Regs) : Regs :=
  let r1 := { r with LEDDIR := 0 }
  { r1 with LEDPORT := 0 }

/-! ## Animator -/

/-- Conversion of an `int` value to `int8_t`. -/
def wrapInt8 (x : Int) : Int := (x + 128) % 256 - 128

/-- The read `data[ x ]` for a signed index. -/
def dataAt (x : Int) : Option Nat :=
  if 0 ≤ x then data[x.toNat]? else none

/-- The function `animPulse( )`. -/
def animPulse (s : State) : Option State :=
  let a : Int := wrapInt8 (if (s.i : Int) ≥ frames then 0 else (s.i : Int))
  let i1 : Nat := (s.i + 1) % 256
  let i2 : Nat := if (i1 : Int) ≥ frames then 0 else i1
  let b : Int := wrapInt8 (a + 1)
  let b : Int := wrapInt8 (if b ≥ frames then 0 else b)
  let c : Int := wrapInt8 (b + 1)
  let c : Int := wrapInt8 (if c ≥ frames then 0 else c)
  match dataAt a, dataAt b, dataAt c with
  | some da, some db, some dc =>
    let lv := ((s.ledValues.set 4 da).set 5 da)
    let lv := ((lv.set 2 db).set 3 db)
    let lv := ((lv.set 0 dc).set 1 dc)
    some { s with i := i2, ledValues := lv, animCalls := s.animCalls + 1 }
  | _, _, _ => none

/-! ## Interrupt handler -/

/-- The handler `ISR( TIM0_COMPA_vect )`: one timer tick. -/
def ISR (s : State) : Option State :=
  match s.ledValues[s.curLED]? with
  | none => none
  | some v =>
    match brightnessMasks[v]? with
    | none => none
    | some mask =>
      let regs? : Option Regs :=
        if mask &&& Bit s.curBit ≠ 0 then turnOnLED s.curLED s.regs
        else some (turnOffLEDs s.regs)
      match regs? with
      | none => none
      | some regs =>
        let curBit1 : Nat := (s.curBit + 1) % 256
        let curLED1 : Nat := (s.curLED + 1) % 256
        let curLED2 : Nat :=
          if curBit1 ≥ ArraySize brightnessMasks then
            (if curLED1 ≥ NumLEDs then 0 else curLED1)
          else s.curLED
        let curBit2 : Nat :=
          if curBit1 ≥ ArraySize brightnessMasks then 0 else curBit1
        let tick1 : Nat := (s.tickCount + 1) % 2 ^ 32
        let s1 : State :=
          { s with regs := regs, curLED := curLED2, curBit := curBit2, tickCount := tick1 }
        if tick1 ≥ 15 * 50 then animPulse { s1 with tickCount := 0 } else some s1

/-- The state after `n` ticks of the timer interrupt. -/
def run : Nat → State → Option State
  | 0, s => some s
  | n + 1, s => (run n s).bind ISR

/-- The state after `n` consecutive calls of `animPulse`. -/
def animPulseN : Nat → State → Option State
  | 0, s => some s
  | n + 1, s => (animPulseN n s).bind animPulse

/-! ## Vocabulary of the properties

What follows is not program text: the predicates the properties are stated
with, and the closed forms of the step functions used in the proofs. -/

/-- LED `led` conducts: its anode pin is an output driven high and its cathode
pin is an output driven low. -/
def conducts (r : Regs) (led : LEDPin) : Bool :=
  (r.LEDDIR &&& led.anodePin != 0) && (r.LEDPORT &&& led.anodePin != 0) &&
  (r.LEDDIR &&& led.cathodePin != 0) && (r.LEDPORT &&& led.cathodePin == 0)

/-- The number of set bits among the 8 bits of a mask. -/
def popCount8 (m : Nat) : Nat :=
  ((List.range 8).filter (fun b => m.testBit b)).length

/-- LED number `j` of `ledDefs` conducts in register state `r`. -/
def conductsAt (r : Regs) (j : Nat) : Bool :=
  match ledDefs[j]? with
  | some led => conducts r led
  | none => false

/-- Pin `p` is driven high by the output register. -/
def pinHigh (r : Regs) (p : Nat) : Bool := r.LEDPORT &&& p != 0

/-- At most one of the LEDs of `ledDefs` conducts. -/
def AtMostOneConducts (r : Regs) : Prop :=
  ∀ j1 < NumLEDs, ∀ j2 < NumLEDs, conductsAt r j1 = true → conductsAt r j2 = true → j1 = j2

instance (r : Regs) : Decidable (AtMostOneConducts r) := by
  unfold AtMostOneConducts; infer_instance

/-- No two distinct pins have their bit set in `LEDPORT`. -/
def AtMostOnePinHigh (r : Regs) : Prop :=
  ∀ p ∈ pins, ∀ q ∈ pins, pinHigh r p = true → pinHigh r q = true → p = q

instance (r : Regs) : Decidable (AtMostOnePinHigh r) := by
  unfold AtMostOnePinHigh; infer_instance

/-- The safety condition on a register state. -/
def SafeRegs (r : Regs) : Prop := AtMostOneConducts r ∧ AtMostOnePinHigh r

instance (r : Regs) : Decidable (SafeRegs r) := by
  unfold SafeRegs; infer_instance

/-- The register states a tick can leave behind: all pins undriven, or the
final state of `turnOnLED` for some entry of `ledDefs`. -/
def TickLeft (r : Regs) : Prop :=
  r = { LEDDIR := 0, LEDPORT := 0 } ∨
  ∃ (k : Nat) (led : LEDPin), ledDefs[k]? = some led ∧
    r = { LEDDIR := led.anodePin ||| led.cathodePin, LEDPORT := led.anodePin }

/-- The clamped read position `a` of `animPulse`, as a natural number. -/
def clampIdx (i : Nat) : Nat := if i ≥ 54 then 0 else i

/-- The successor of a frame position, wrapping at the end of the table. -/
def nextIdx (a : Nat) : Nat := if a + 1 ≥ 54 then 0 else a + 1

/-- The new value of the static `i` of `animPulse`. -/
def nextCursor (i : Nat) : Nat := if (i + 1) % 256 ≥ 54 then 0 else (i + 1) % 256

/-- The frame value at position `n` (0 outside the table). -/
def frameAt (n : Nat) : Nat := data.getD n 0

/-- The six writes of `animPulse` to `ledValues`, in program order. -/
def writePairs (lv : List Nat) (da db dc : Nat) : List Nat :=
  (((((lv.set 4 da).set 5 da).set 2 db).set 3 db).set 0 dc).set 1 dc

/-- The final register state of `turnOnLED` for LED number `k`. -/
def onRegs (k : Nat) : Regs :=
  match ledDefs[k]? with
  | some led => { LEDDIR := led.anodePin ||| led.cathodePin, LEDPORT := led.anodePin }
  | none => { LEDDIR := 0, LEDPORT := 0 }

/-- The register state a tick leaves behind for LED `k` at brightness `v` and
sub-frame bit `b`. -/
def driveRegs (k v b : Nat) : Regs :=
  if b < v then onRegs k else { LEDDIR := 0, LEDPORT := 0 }

/-- The LED index after one cursor advance. -/
def nextLED (led bit : Nat) : Nat :=
  if bit + 1 ≥ 9 then (if led + 1 ≥ 6 then 0 else led + 1) else led

/-- The sub-frame bit after one cursor advance. -/
def nextBit (bit : Nat) : Nat := if bit + 1 ≥ 9 then 0 else bit + 1

/-- The state after the scanner part of a tick (before the threshold test),
for the brightness value `v` of the current LED. -/
def scanned (s : State) (v : Nat) : State :=
  { s with
    regs := driveRegs s.curLED v s.curBit
    curLED := nextLED s.curLED s.curBit
    curBit := nextBit s.curBit
    tickCount := (s.tickCount + 1) % 2 ^ 32 }

/-- The brightness table is well formed: six entries, each a level 0..8. -/
def ValuesOK (lv : List Nat) : Prop := lv.length = 6 ∧ ∀ v ∈ lv, v ≤ 8

instance (lv : List Nat) : Decidable (ValuesOK lv) := by
  unfold ValuesOK; infer_instance

/-- The threshold test of the handler succeeds on the tick taken from `s`. -/
def fires (s : State) : Bool := decide ((s.tickCount + 1) % 2 ^ 32 ≥ 750)

/-- The state one tick after `s`, for the brightness value `v` of the current
LED, written out field by field. -/
def stepState (s : State) (v : Nat) : State :=
  if fires s = true then
    { scanned s v with
      tickCount := 0
      i := nextCursor s.i
      ledValues := writePairs s.ledValues (frameAt (clampIdx s.i))
        (frameAt (nextIdx (clampIdx s.i))) (frameAt (nextIdx (nextIdx (clampIdx s.i))))
      animCalls := s.animCalls + 1 }
  else scanned s v

/-- The scan cursor `(curLED, curBit)` after `n` ticks from `s`. -/
def cursorAfter (n : Nat) (s : State) : Option (Nat × Nat) :=
  (run n s).map (fun st => (st.curLED, st.curBit))

/-- The three read positions `a`, `b`, `c` of `animPulse` for the cursor value
`i`, computed as the function computes them. -/
def readPositions (i : Nat) : Int × Int × Int :=
  let a : Int := wrapInt8 (if (i : Int) ≥ frames then 0 else (i : Int))
  let b : Int := wrapInt8 (a + 1)
  let b : Int := wrapInt8 (if b ≥ frames then 0 else b)
  let c : Int := wrapInt8 (b + 1)
  let c : Int := wrapInt8 (if c ≥ frames then 0 else c)
  (a, b, c)

/-- LED `k` is driven on in the register state left by tick number `n`
(the state after `n` ticks from `s`). -/
def litAfter (s : State) (n k : Nat) : Bool :=
  match run n s with
  | some st => conductsAt st.regs k
  | none => false

/-- The ticks `t` (counted from 0) among the 54 ticks from `s` that are taken
while `curLED = k`: the sub-frame of LED `k`. -/
def subframeTicks (s : State) (k : Nat) : List Nat :=
  (List.range 54).filter (fun t =>
    match run t s with
    | some st => st.curLED == k
    | none => false)

/-- The ticks of the sub-frame of LED `k` that leave LED `k` driven on. -/
def onTicks (s : State) (k : Nat) : List Nat :=
  (subframeTicks s k).filter (fun t => litAfter s (t + 1) k)

/-- The fraction of the sub-frame of LED `k` during which it is driven on. -/
def dutyFraction (s : State) (k : Nat) : ℚ :=
  ((onTicks s k).length : ℚ) / ((subframeTicks s k).length : ℚ)

/-- The state after 21006 ticks from the initial state: the start of a scan
with every brightness value at level 8. -/
def allEight : State :=
  { regs := { LEDDIR := 0, LEDPORT := 0 }
    curLED := 0
    curBit := 0
    tickCount := 6
    i := 28
    ledValues := [8, 8, 8, 8, 8, 8]
    animCalls := 28 }

/-- The state after 10494 ticks from the initial state: the start of the
sub-frame of LED 2, six ticks before `animPulse` is called. -/
def midScan : State :=
  { regs := { LEDDIR := 0, LEDPORT := 0 }
    curLED := 2
    curBit := 0
    tickCount := 744
    i := 13
    ledValues := [3, 3, 3, 3, 3, 3]
    animCalls := 13 }

/-- Each level of `levels` held for `n` consecutive entries. -/
def holdEach (n : Nat) (levels : List Nat) : List Nat :=
  (levels.map (fun l => List.replicate n l)).flatten

/-- The table the specification describes: an ascending ramp through the
levels 0..8 followed by a descending ramp through the levels 8..0, each level
of each ramp held for 3 consecutive entries. -/
def triangleRamp : List Nat :=
  holdEach 3 (List.range 9 ++ (List.range 9).reverse)

/-- The levels of the 18 groups of the table `data`. -/
def dataLevels : List Nat := 0 :: (List.range 9 ++ (List.range 8).reverse)

/-- The brightness table written by a call of `animPulse` that reads from
position `a`. -/
def valuesAt (a : Nat) : List Nat :=
  [ frameAt (nextIdx (nextIdx a)), frameAt (nextIdx (nextIdx a)),
    frameAt (nextIdx a), frameAt (nextIdx a),
    frameAt a, frameAt a ]

/-- The brightness table after `q` calls of `animPulse` from the initial
state. -/
def valuesAfter (q : Nat) : List Nat :=
  if q = 0 then [0, 0, 0, 0, 0, 0] else valuesAt ((q - 1) % 54)

/-- The pin registers after `n` ticks from the initial state. -/
def regsAfter : Nat → Regs
  | 0 => { LEDDIR := 0, LEDPORT := 0 }
  | m + 1 => driveRegs ((m / 9) % 6) ((valuesAfter (m / 750)).getD ((m / 9) % 6) 0) (m % 9)

/-- The state after `n` ticks from the initial state, in closed form. -/
def stateAfter (n : Nat) : State :=
  { regs := regsAfter n
    curLED := (n / 9) % 6
    curBit := n % 9
    tickCount := n % 750
    i := (n / 750) % 54
    ledValues := valuesAfter (n / 750)
    animCalls := n / 750 }

/-- The mutable state of the core without the pin registers and the ghost
counter: `(curLED, curBit, tickCount, i, ledValues)`. -/
def coreState (s : State) : Nat × Nat × Nat × Nat × List Nat :=
  (s.curLED, s.curBit, s.tickCount, s.i, s.ledValues)

/-! ## Start-up code -/

/-- The reset-flag register and the animation selector, the state
`handleResetButton` works on. -/
structure ResetState where
  RSTFLR : Nat
  animationNo : Nat
deriving DecidableEq, Repr

/-- The library test `bit_is_set( sfr, bit )`: `sfr & (1 << bit)` is not 0. -/
def bit_is_set (sfr bit : Nat) : Bool := sfr &&& Bit bit != 0

/-- The update `sfr &= ~Bit( bit )` of an 8-bit register: the complement is
taken in the 16-bit `int`, the result is stored in 8 bits. -/
def clearBit (sfr bit : Nat) : Nat := (sfr &&& (0xFFFF ^^^ Bit bit)) % 256

/-- The function `handleResetButton( )`.  The bit numbers `PORF` and `EXTRF`
come from the device header and are parameters. -/
def handleResetButton (PORF EXTRF : Nat) (s : ResetState) : ResetState :=
  if bit_is_set s.RSTFLR PORF = true then
    { RSTFLR := clearBit s.RSTFLR PORF, animationNo := 0 }
  else if bit_is_set s.RSTFLR EXTRF = true then
    let animationNo1 : Nat := (s.animationNo + 1) % 256
    { RSTFLR := clearBit s.RSTFLR EXTRF
      animationNo := if animationNo1 ≥ NumAnimations then 0 else animationNo1 }
  else s

/-! ## Lemmas about the tables and the step functions -/

theorem brightnessMasks_eq (L : Nat) (hL : L ≤ 8) : brightnessMasks[L]? = some (2 ^ L - 1) := by
  interval_cases L <;> rfl

theorem ledDefs_lt {k : Nat} {led : LEDPin} (h : ledDefs[k]? = some led) : k < 6 := by
  have := (List.getElem?_eq_some.mp h).1
  simpa [ledDefs] using this

theorem frames_eq : frames = 54 := by decide

theorem clampIdx_lt (i : Nat) : clampIdx i < 54 := by
  unfold clampIdx; split_ifs <;> omega

theorem nextIdx_lt (a : Nat) : nextIdx a < 54 := by
  unfold nextIdx; split_ifs <;> omega

theorem nextCursor_lt (i : Nat) : nextCursor i < 54 := by
  unfold nextCursor; split_ifs <;> omega

theorem wrap_clamp (i : Nat) :
    wrapInt8 (if (i : Int) ≥ frames then 0 else (i : Int)) = ((clampIdx i : Nat) : Int) := by
  rw [frames_eq]; unfold wrapInt8 clampIdx
  split_ifs <;> omega

theorem wrap_next (a : Nat) (ha : a < 54) :
    wrapInt8 (if wrapInt8 ((a : Int) + 1) ≥ frames then 0 else wrapInt8 ((a : Int) + 1))
      = ((nextIdx a : Nat) : Int) := by
  rw [frames_eq]; unfold wrapInt8 nextIdx
  split_ifs <;> omega

theorem dataAt_cast (n : Nat) (h : n < 54) : dataAt (n : Int) = some (frameAt n) := by
  have h0 : (0 : Int) ≤ (n : Int) := Int.ofNat_nonneg n
  simp only [dataAt, h0, if_true, Int.toNat_ofNat, frameAt]
  interval_cases n <;> rfl

theorem frameAt_le (n : Nat) : frameAt n ≤ 8 := by
  by_cases h : n < 54
  · interval_cases n <;> decide
  · have : data.length ≤ n := by simp [data]; omega
    have h2 : data[n]? = none := List.getElem?_eq_none this
    simp [frameAt, h2]

theorem animPulse_eq (s : State) :
    animPulse s = some { s with
      i := nextCursor s.i
      ledValues := writePairs s.ledValues (frameAt (clampIdx s.i))
        (frameAt (nextIdx (clampIdx s.i))) (frameAt (nextIdx (nextIdx (clampIdx s.i))))
      animCalls := s.animCalls + 1 } := by
  unfold animPulse
  simp only [wrap_clamp, wrap_next _ (clampIdx_lt _), wrap_next _ (nextIdx_lt _),
    dataAt_cast _ (clampIdx_lt _), dataAt_cast _ (nextIdx_lt _)]
  have : (if ((((s.i + 1) % 256 : Nat) : Int)) ≥ frames then 0 else (s.i + 1) % 256) = nextCursor s.i := by
    rw [frames_eq]; unfold nextCursor; split_ifs <;> omega
  rw [this]; rfl

theorem mask_bit (v b : Nat) (hv : v ≤ 8) (hb : b < 9) :
    ((2 ^ v - 1) &&& Bit b ≠ 0) ↔ b < v := by
  interval_cases v <;> interval_cases b <;> decide

theorem turnOnLED_eq (k : Nat) (hk : k < 6) (r : Regs) : turnOnLED k r = some (onRegs k) := by
  interval_cases k <;> rfl

theorem ISR_eq (s : State) (v : Nat) (hL : s.curLED < 6) (hB : s.curBit < 9)
    (hv : s.ledValues[s.curLED]? = some v) (hv8 : v ≤ 8) :
    ISR s = if (s.tickCount + 1) % 2 ^ 32 ≥ 750
      then animPulse { scanned s v with tickCount := 0 } else some (scanned s v) := by
  have hregs : (if (2 ^ v - 1) &&& Bit s.curBit ≠ 0 then turnOnLED s.curLED s.regs
      else some (turnOffLEDs s.regs)) = some (driveRegs s.curLED v s.curBit) := by
    unfold driveRegs
    by_cases hb : s.curBit < v
    · rw [if_pos ((mask_bit v _ hv8 hB).mpr hb), if_pos hb, turnOnLED_eq _ hL]
    · rw [if_neg (fun h => hb ((mask_bit v _ hv8 hB).mp h)), if_neg hb]; rfl
  have h1 : (s.curBit + 1) % 256 = s.curBit + 1 := by omega
  have h2 : (s.curLED + 1) % 256 = s.curLED + 1 := by omega
  unfold ISR
  simp only [hv, brightnessMasks_eq v hv8, hregs, h1, h2]
  rfl

theorem writePairs_eq (lv : List Nat) (h : lv.length = 6) (da db dc : Nat) :
    writePairs lv da db dc = [dc, dc, db, db, da, da] := by
  match lv, h with
  | [_, _, _, _, _, _], _ => rfl

theorem writePairs_ok (lv : List Nat) (h : lv.length = 6) (da db dc : Nat)
    (ha : da ≤ 8) (hb : db ≤ 8) (hc : dc ≤ 8) : ValuesOK (writePairs lv da db dc) := by
  rw [writePairs_eq lv h]
  refine ⟨rfl, ?_⟩
  intro v hv
  simp only [List.mem_cons, List.mem_singleton, List.not_mem_nil, or_false] at hv
  rcases hv with h | h | h | h | h | h <;> omega

theorem values_get (lv : List Nat) (h : ValuesOK lv) (k : Nat) (hk : k < 6) :
    ∃ v, lv[k]? = some v ∧ v ≤ 8 := by
  have hk2 : k < lv.length := by rw [h.1]; exact hk
  exact ⟨lv[k], List.getElem?_eq_getElem hk2, h.2 _ (List.getElem_mem hk2)⟩

theorem ISR_step (s : State) (v : Nat) (hL : s.curLED < 6) (hB : s.curBit < 9)
    (hv : s.ledValues[s.curLED]? = some v) (hv8 : v ≤ 8) :
    ISR s = some (stepState s v) := by
  rw [ISR_eq s v hL hB hv hv8]
  unfold stepState fires
  by_cases h : (s.tickCount + 1) % 2 ^ 32 ≥ 750
  · rw [if_pos h, if_pos (decide_eq_true h), animPulse_eq]; rfl
  · rw [if_neg h, if_neg (by simpa using h)]

theorem stepState_values (s : State) (v : Nat) (h : ValuesOK s.ledValues) :
    ValuesOK (stepState s v).ledValues := by
  unfold stepState
  split_ifs
  · exact writePairs_ok _ h.1 _ _ _ (frameAt_le _) (frameAt_le _) (frameAt_le _)
  · exact h

theorem stepState_curLED (s : State) (v : Nat) :
    (stepState s v).curLED = nextLED s.curLED s.curBit := by
  unfold stepState; split_ifs <;> rfl

theorem stepState_curBit (s : State) (v : Nat) :
    (stepState s v).curBit = nextBit s.curBit := by
  unfold stepState; split_ifs <;> rfl

theorem stepState_regs (s : State) (v : Nat) :
    (stepState s v).regs = driveRegs s.curLED v s.curBit := by
  unfold stepState; split_ifs <;> rfl

theorem run_succ (n : Nat) (s : State) : run (n + 1) s = (run n s).bind ISR := rfl

/-- From any state with a valid cursor and brightness table, `n` ticks run
without a failing lookup and move the cursor by `n` positions. -/
theorem run_scan (s : State) (hL : s.curLED < 6) (hB : s.curBit < 9)
    (hval : ValuesOK s.ledValues) (n : Nat) :
    ∃ s', run n s = some s' ∧ ValuesOK s'.ledValues ∧
      s'.curLED = ((s.curLED * 9 + s.curBit + n) / 9) % 6 ∧
      s'.curBit = (s.curLED * 9 + s.curBit + n) % 9 := by
  induction n with
  | zero => exact ⟨s, rfl, hval, by omega, by omega⟩
  | succ n ih =>
    obtain ⟨s', hrun, hv', hl', hb'⟩ := ih
    have hL' : s'.curLED < 6 := by omega
    have hB' : s'.curBit < 9 := by omega
    obtain ⟨v, hv, hv8⟩ := values_get _ hv' _ hL'
    refine ⟨stepState s' v, ?_, stepState_values _ _ hv', ?_, ?_⟩
    · rw [run_succ, hrun]; exact ISR_step s' v hL' hB' hv hv8
    · rw [stepState_curLED]; unfold nextLED; split_ifs <;> omega
    · rw [stepState_curBit]; unfold nextBit; split_ifs <;> omega

theorem readPositions_eq (i : Nat) :
    readPositions i = (((clampIdx i : Nat) : Int), ((nextIdx (clampIdx i) : Nat) : Int),
      ((nextIdx (nextIdx (clampIdx i)) : Nat) : Int)) := by
  unfold readPositions
  simp only [wrap_clamp, wrap_next _ (clampIdx_lt _), wrap_next _ (nextIdx_lt _)]

theorem animPulse_reads (s : State) :
    animPulse s =
      match dataAt (readPositions s.i).1, dataAt (readPositions s.i).2.1,
        dataAt (readPositions s.i).2.2 with
      | some da, some db, some dc =>
        some { s with
          i := if ((((s.i + 1) % 256 : Nat) : Int)) ≥ frames then 0 else (s.i + 1) % 256
          ledValues := writePairs s.ledValues da db dc
          animCalls := s.animCalls + 1 }
      | _, _, _ => none := rfl

/-- Everything the handler has done after `n` ticks from the initial state. -/
theorem run_init (n : Nat) :
    ∃ s, run n init = some s ∧ s.curLED = (n / 9) % 6 ∧ s.curBit = n % 9 ∧
      s.tickCount = n % 750 ∧ s.animCalls = n / 750 ∧ s.i = (n / 750) % 54 ∧
      ValuesOK s.ledValues ∧ TickLeft s.regs := by
  induction n with
  | zero => exact ⟨init, rfl, rfl, rfl, rfl, rfl, rfl, by decide, Or.inl rfl⟩
  | succ n ih =>
    obtain ⟨s, hrun, hl, hb, ht, hc, hi, hv, _⟩ := ih
    have hL : s.curLED < 6 := by omega
    have hB : s.curBit < 9 := by omega
    obtain ⟨v, hv1, hv8⟩ := values_get _ hv _ hL
    refine ⟨stepState s v, ?_, ?_, ?_, ?_, ?_, ?_, stepState_values _ _ hv, ?_⟩
    · rw [run_succ, hrun]; exact ISR_step s v hL hB hv1 hv8
    · rw [stepState_curLED]; unfold nextLED; split_ifs <;> omega
    · rw [stepState_curBit]; unfold nextBit; split_ifs <;> omega
    · unfold stepState fires
      split_ifs with h
      · simp only [decide_eq_true_eq] at h
        show 0 = (n + 1) % 750
        omega
      · simp only [decide_eq_true_eq] at h
        show (s.tickCount + 1) % 2 ^ 32 = (n + 1) % 750
        omega
    · unfold stepState fires
      split_ifs with h
      · simp only [decide_eq_true_eq] at h
        show s.animCalls + 1 = (n + 1) / 750
        omega
      · simp only [decide_eq_true_eq] at h
        show s.animCalls = (n + 1) / 750
        omega
    · unfold stepState fires
      split_ifs with h
      · simp only [decide_eq_true_eq] at h
        show nextCursor s.i = (n + 1) / 750 % 54
        have hdiv : (n + 1) / 750 = n / 750 + 1 := by omega
        rw [hdiv, hi]
        generalize n / 750 = q
        unfold nextCursor
        split_ifs <;> omega
      · simp only [decide_eq_true_eq] at h
        show s.i = (n + 1) / 750 % 54
        omega
    · rw [stepState_regs]; unfold driveRegs
      split_ifs
      · right
        obtain ⟨led, hled⟩ : ∃ led, ledDefs[s.curLED]? = some led := by
          have : s.curLED < ledDefs.length := by simpa [ledDefs] using hL
          exact ⟨_, List.getElem?_eq_getElem this⟩
        refine ⟨s.curLED, led, hled, ?_⟩
        unfold onRegs; rw [hled]
      · left; rfl

theorem data_get (n : Nat) (h : n < 54) : data[n]? = some (frameAt n) := by
  interval_cases n <;> rfl

theorem clampIdx_of_lt (i : Nat) (h : i < 54) : clampIdx i = i := by
  unfold clampIdx; split_ifs <;> omega

theorem nextIdx_mod (a : Nat) (h : a < 54) : nextIdx a = (a + 1) % 54 := by
  unfold nextIdx; split_ifs <;> omega

theorem nextCursor_mod (i : Nat) (h : i < 54) : nextCursor i = (i + 1) % 54 := by
  unfold nextCursor; split_ifs <;> omega

theorem animPulseN_succ (n : Nat) (s : State) :
    animPulseN (n + 1) s = (animPulseN n s).bind animPulse := rfl

theorem animPulseN_cursor (s : State) (hi : s.i < 54) (m : Nat) :
    ∃ sm, animPulseN m s = some sm ∧ sm.i = (s.i + m) % 54 := by
  induction m with
  | zero => exact ⟨s, rfl, by omega⟩
  | succ m ih =>
    obtain ⟨sm, hm, hcur⟩ := ih
    refine ⟨_, by rw [animPulseN_succ, hm]; exact animPulse_eq sm, ?_⟩
    show nextCursor sm.i = (s.i + (m + 1)) % 54
    rw [nextCursor_mod _ (by omega)]
    omega

theorem conductsAt_drive (led v b k : Nat) (hled : led < 6) (hk : k < 6) :
    conductsAt (driveRegs led v b) k = true ↔ (led = k ∧ b < v) := by
  unfold driveRegs
  by_cases h : b < v
  · simp only [h, if_true, and_true]
    interval_cases led <;> interval_cases k <;> decide
  · simp only [h, if_false, and_false]
    interval_cases k <;> decide

/-- One tick of a scan whose brightness table stays `vals`. -/
theorem fixed_tick (s : State) (vals : List Nat) (hl : s.curLED = 0) (hb : s.curBit = 0)
    (hvals : ValuesOK vals)
    (hfix : ∀ t < 54, (run t s).map (fun st => st.ledValues) = some vals)
    (t : Nat) (ht : t < 54) :
    ∃ st st' v, run t s = some st ∧ run (t + 1) s = some st' ∧ st.curLED = t / 9 ∧
      st.curBit = t % 9 ∧ vals[t / 9]? = some v ∧ v ≤ 8 ∧
      st'.regs = driveRegs (t / 9) v (t % 9) := by
  have h0 : s.ledValues = vals := by
    have := hfix 0 (by omega)
    simpa [run] using this
  obtain ⟨st, hrun, _, hl', hb'⟩ := run_scan s (by omega) (by omega) (h0 ▸ hvals) t
  have hst : st.ledValues = vals := by
    have := hfix t ht
    rw [hrun] at this
    simpa using this
  have hL : st.curLED = t / 9 := by omega
  have hB : st.curBit = t % 9 := by omega
  obtain ⟨v, hv, hv8⟩ := values_get vals hvals (t / 9) (by omega)
  have hv' : st.ledValues[st.curLED]? = some v := by rw [hst, hL]; exact hv
  refine ⟨st, stepState st v, v, hrun, ?_, hL, hB, hv, hv8, ?_⟩
  · rw [run_succ, hrun]; exact ISR_step st v (by omega) (by omega) hv' hv8
  · rw [stepState_regs, hL, hB]

theorem fixed_lit (s : State) (vals : List Nat) (k v : Nat) (hk : k < 6)
    (hl : s.curLED = 0) (hb : s.curBit = 0) (hvals : ValuesOK vals)
    (hfix : ∀ t < 54, (run t s).map (fun st => st.ledValues) = some vals)
    (hv : vals[k]? = some v) (t : Nat) (ht : t < 54) :
    litAfter s (t + 1) k = true ↔ (t / 9 = k ∧ t % 9 < v) := by
  obtain ⟨st, st', w, _, hrun', _, _, hw, _, hregs⟩ := fixed_tick s vals hl hb hvals hfix t ht
  unfold litAfter
  rw [hrun']
  simp only [hregs]
  rw [conductsAt_drive _ _ _ _ (by omega) hk]
  constructor
  · rintro ⟨h1, h2⟩
    rw [h1, hv] at hw
    cases hw
    exact ⟨h1, h2⟩
  · rintro ⟨h1, h2⟩
    rw [h1, hv] at hw
    cases hw
    exact ⟨h1, h2⟩

theorem count_on (k v : Nat) (hk : k < 6) (hv : v ≤ 8) :
    ((List.range 54).filter (fun t => decide (t / 9 = k ∧ t % 9 < v))).length = v := by
  interval_cases k <;> interval_cases v <;> rfl

theorem tickLeft_safe (r : Regs) (hr : TickLeft r) : SafeRegs r := by
  rcases hr with rfl | ⟨k', led', hk', rfl⟩
  · decide
  · have := ledDefs_lt hk'
    interval_cases k' <;> simp [ledDefs] at hk' <;> subst hk' <;> decide

theorem turnOnLED_tickLeft (k : Nat) (r r' : Regs) (h : turnOnLED k r = some r') :
    TickLeft r' := by
  unfold turnOnLED at h
  cases hled : ledDefs[k]? with
  | none => rw [hled] at h; cases h
  | some led =>
    rw [hled] at h
    have hk := ledDefs_lt hled
    right
    refine ⟨k, led, hled, ?_⟩
    simp only [Option.some.injEq] at h
    rw [← h]
    interval_cases k <;> simp [ledDefs] at hled <;> subst hled <;> rfl

theorem ISR_regs (s s' : State) (h : ISR s = some s') : TickLeft s'.regs := by
  unfold ISR at h
  cases hv : s.ledValues[s.curLED]? with
  | none => simp [hv] at h
  | some v =>
    cases hm : brightnessMasks[v]? with
    | none => simp [hv, hm] at h
    | some mask =>
      cases hr : (if mask &&& Bit s.curBit ≠ 0 then turnOnLED s.curLED s.regs
          else some (turnOffLEDs s.regs)) with
      | none => simp only [hv, hm, hr] at h; cases h
      | some regs =>
        have hregs : TickLeft regs := by
          split_ifs at hr with hb
          · exact turnOnLED_tickLeft _ _ _ hr
          · simp only [Option.some.injEq] at hr
            rw [← hr]; left; rfl
        simp only [hv, hm, hr] at h
        split_ifs at h <;>
          first
          | (rw [animPulse_eq] at h
             simp only [Option.some.injEq] at h
             rw [← h]; exact hregs)
          | (simp only [Option.some.injEq] at h
             rw [← h]; exact hregs)

theorem state_eq (s t : State) (h1 : s.regs = t.regs) (h2 : s.curLED = t.curLED)
    (h3 : s.curBit = t.curBit) (h4 : s.tickCount = t.tickCount) (h5 : s.i = t.i)
    (h6 : s.ledValues = t.ledValues) (h7 : s.animCalls = t.animCalls) : s = t := by
  cases s; cases t; simp_all

theorem run_init_values (n : Nat) :
    ∃ s, run n init = some s ∧ s.ledValues = valuesAfter (n / 750) := by
  induction n with
  | zero => exact ⟨init, rfl, rfl⟩
  | succ n ih =>
    obtain ⟨s, hrun, hlv⟩ := ih
    obtain ⟨s0, hrun0, hl, hb, ht, _, hi, hv, _⟩ := run_init n
    rw [hrun] at hrun0
    cases hrun0
    have hL : s.curLED < 6 := by omega
    have hB : s.curBit < 9 := by omega
    obtain ⟨v, hv1, hv8⟩ := values_get _ hv _ hL
    refine ⟨stepState s v, by rw [run_succ, hrun]; exact ISR_step s v hL hB hv1 hv8, ?_⟩
    unfold stepState fires
    split_ifs with h
    · simp only [decide_eq_true_eq] at h
      show writePairs s.ledValues _ _ _ = _
      have hdiv : (n + 1) / 750 = n / 750 + 1 := by omega
      rw [writePairs_eq _ hv.1, hdiv, hi, clampIdx_of_lt _ (by omega)]
      unfold valuesAfter
      rw [if_neg (by omega), Nat.add_sub_cancel]
      rfl
    · simp only [decide_eq_true_eq] at h
      show s.ledValues = _
      have hdiv : (n + 1) / 750 = n / 750 := by omega
      rw [hdiv, hlv]

theorem run_init_state (n : Nat) : run n init = some (stateAfter n) := by
  obtain ⟨s, hrun, hl, hb, ht, hc, hi, hv, _⟩ := run_init n
  obtain ⟨s1, hrun1, hlv⟩ := run_init_values n
  rw [hrun] at hrun1
  cases hrun1
  rw [hrun]
  congr 1
  apply state_eq _ _ ?_ hl hb ht hi hlv hc
  cases n with
  | zero => cases hrun; rfl
  | succ m =>
    obtain ⟨p, hp, hpl, hpb, _, _, _, hpv, _⟩ := run_init m
    obtain ⟨p1, hp1, hplv⟩ := run_init_values m
    rw [hp] at hp1
    cases hp1
    have hL : p.curLED < 6 := by omega
    have hB : p.curBit < 9 := by omega
    obtain ⟨v, hv1, hv8⟩ := values_get _ hpv _ hL
    have hstep : run (m + 1) init = some (stepState p v) := by
      rw [run_succ, hp]; exact ISR_step p v hL hB hv1 hv8
    rw [hrun] at hstep
    cases hstep
    rw [stepState_regs]
    show _ = driveRegs _ _ _
    rw [hpl, hpb, ← hplv]
    congr 1
    rw [List.getD_eq_getElem?_getD, ← hpl, hv1]
    rfl

theorem scan_regs (k v b : Nat) (r : Regs) (hk : k < 6) (hb : b < 9) (hv : v ≤ 8) :
    (if (2 ^ v - 1) &&& Bit b ≠ 0 then turnOnLED k r else some (turnOffLEDs r))
      = some (driveRegs k v b) := by
  unfold driveRegs
  by_cases h : b < v
  · rw [if_pos ((mask_bit v _ hv hb).mpr h), if_pos h, turnOnLED_eq _ hk]
  · rw [if_neg (fun h' => h ((mask_bit v _ hv hb).mp h')), if_neg h]; rfl

theorem ISR_quiet (s s' : State) (hq : s.tickCount + 1 < 750) (h : ISR s = some s') :
    s'.ledValues = s.ledValues ∧ s'.i = s.i ∧ s'.animCalls = s.animCalls := by
  have hno : ¬ ((s.tickCount + 1) % 2 ^ 32 ≥ 15 * 50) := by omega
  unfold ISR at h
  cases hv : s.ledValues[s.curLED]? with
  | none => simp [hv] at h
  | some v =>
    cases hm : brightnessMasks[v]? with
    | none => simp [hv, hm] at h
    | some mask =>
      cases hr : (if mask &&& Bit s.curBit ≠ 0 then turnOnLED s.curLED s.regs
          else some (turnOffLEDs s.regs)) with
      | none => simp only [hv, hm, hr] at h; cases h
      | some regs =>
        simp only [hv, hm, hr, if_neg hno, Option.some.injEq] at h
        rw [← h]
        exact ⟨rfl, rfl, rfl⟩

theorem animPulse_values (s : State) (hlen : s.ledValues.length = 6) :
    ∃ p, animPulse s = some p ∧ p.ledValues = valuesAt (clampIdx s.i) ∧
      p.i = nextCursor s.i ∧ p.ledValues.length = 6 := by
  refine ⟨_, animPulse_eq s, ?_, rfl, ?_⟩
  · show writePairs s.ledValues _ _ _ = _
    rw [writePairs_eq _ hlen]; rfl
  · show (writePairs s.ledValues _ _ _).length = 6
    rw [writePairs_eq _ hlen]; rfl

theorem valuesAfter_period (q : Nat) : valuesAfter (q + 54) = valuesAfter q := by
  unfold valuesAfter
  by_cases h : q = 0
  · subst h; decide
  · rw [if_neg (by omega), if_neg h]
    have : (q + 54 - 1) % 54 = (q - 1) % 54 := by omega
    rw [this]

theorem regsAfter_period (n : Nat) : regsAfter (n + 40500) = regsAfter n := by
  cases n with
  | zero => decide
  | succ m =>
    have h0 : m + 1 + 40500 = (m + 40500) + 1 := by omega
    rw [h0]
    show driveRegs _ _ _ = driveRegs _ _ _
    have h1 : (m + 40500) / 9 % 6 = m / 9 % 6 := by omega
    have h2 : (m + 40500) % 9 = m % 9 := by omega
    have h3 : (m + 40500) / 750 = m / 750 + 54 := by omega
    rw [h1, h2, h3, valuesAfter_period]

theorem frame_near (a : Nat) (h : a < 54) :
    frameAt a ≤ frameAt (nextIdx a) + 1 ∧ frameAt (nextIdx a) ≤ frameAt a + 1 := by
  interval_cases a <;> decide

theorem valuesAt_get (a k : Nat) (hk : k < 6) :
    (valuesAt a)[k]? = some (frameAt (if k < 2 then nextIdx (nextIdx a)
      else if k < 4 then nextIdx a else a)) := by
  interval_cases k <;> rfl

theorem valuesAfter_step (q k : Nat) (hk : k < 6) :
    ∃ u w, (valuesAfter q)[k]? = some u ∧ (valuesAfter (q + 1))[k]? = some w ∧
      u ≤ w + 1 ∧ w ≤ u + 1 := by
  by_cases h : q = 0
  · subst h
    refine ⟨0, 0, ?_, ?_, by omega, by omega⟩ <;> interval_cases k <;> rfl
  · have hq : valuesAfter q = valuesAt ((q - 1) % 54) := by
      unfold valuesAfter; rw [if_neg h]
    have hq1 : valuesAfter (q + 1) = valuesAt (nextIdx ((q - 1) % 54)) := by
      unfold valuesAfter
      rw [if_neg (by omega), Nat.add_sub_cancel]
      congr 1
      unfold nextIdx
      split_ifs <;> omega
    rw [hq, hq1]
    have ha : (q - 1) % 54 < 54 := Nat.mod_lt _ (by omega)
    revert ha
    generalize (q - 1) % 54 = a
    intro ha
    refine ⟨_, _, valuesAt_get a k hk, valuesAt_get _ k hk, ?_⟩
    split_ifs
    · exact frame_near _ (nextIdx_lt _)
    · exact frame_near _ (nextIdx_lt _)
    · exact frame_near a ha

theorem valuesAfter_form (q : Nat) :
    ∃ x y z, valuesAfter q = [z, z, y, y, x, x] ∧
      x ≤ y + 1 ∧ y ≤ x + 1 ∧ y ≤ z + 1 ∧ z ≤ y + 1 := by
  unfold valuesAfter
  split_ifs
  · exact ⟨0, 0, 0, rfl, by omega, by omega, by omega, by omega⟩
  · have ha : (q - 1) % 54 < 54 := Nat.mod_lt _ (by omega)
    exact ⟨_, _, _, rfl, (frame_near _ ha).1, (frame_near _ ha).2,
      (frame_near _ (nextIdx_lt _)).1, (frame_near _ (nextIdx_lt _)).2⟩

theorem bit_is_set_eq (r p : Nat) : bit_is_set r p = r.testBit p := by
  unfold bit_is_set Bit
  rw [Nat.one_shiftLeft, Bool.eq_iff_iff]
  simp only [bne_iff_ne, ne_eq]
  constructor
  · intro h
    by_contra hb
    apply h
    apply Nat.eq_of_testBit_eq
    intro i
    rw [Nat.testBit_and, Nat.testBit_two_pow, Nat.zero_testBit]
    by_cases hpi : p = i
    · subst hpi; simp [hb]
    · simp [hpi]
  · intro hb h
    have := congrArg (fun x => Nat.testBit x p) h
    simp [Nat.testBit_two_pow, hb] at this

theorem clearBit_testBit (r p b : Nat) (hr : r < 256) :
    (clearBit r p).testBit b = (r.testBit b && decide (b ≠ p)) := by
  unfold clearBit Bit
  rw [Nat.one_shiftLeft]
  have h256 : (256 : Nat) = 2 ^ 8 := by norm_num
  have hff : (0xFFFF : Nat) = 2 ^ 16 - 1 := by norm_num
  rw [h256, Nat.testBit_mod_two_pow, Nat.testBit_and, Nat.testBit_xor, hff,
    Nat.testBit_two_pow_sub_one, Nat.testBit_two_pow]
  by_cases hb : b < 8
  · have h16 : b < 16 := by omega
    by_cases hpb : p = b
    · subst hpb; simp [hb, h16]
    · have : b ≠ p := fun h => hpb h.symm
      simp [hb, h16, hpb, this]
  · have hlt : r < 2 ^ b := by
      have : 2 ^ 8 ≤ 2 ^ b := Nat.pow_le_pow_right (by omega) (by omega)
      omega
    simp [hb, Nat.testBit_lt_two_pow hlt]

/-- One tick of the sub-frame of LED `k`, started at `s`, during which the
brightness value of LED `k` stays `v`. -/
theorem subframe_tick (s : State) (k v : Nat) (hk : k < 6) (hl : s.curLED = k)
    (hb : s.curBit = 0) (hvals : ValuesOK s.ledValues)
    (hfix : ∀ t < 9, (run t s).bind (fun st => st.ledValues[k]?) = some v)
    (t : Nat) (ht : t < 9) :
    ∃ st st', run t s = some st ∧ run (t + 1) s = some st' ∧ st.curLED = k ∧
      st.curBit = t ∧ v ≤ 8 ∧ st'.regs = driveRegs k v t := by
  obtain ⟨st, hrun, hv', hl', hb'⟩ := run_scan s (by omega) (by omega) hvals t
  have hL : st.curLED = k := by omega
  have hB : st.curBit = t := by omega
  have hv : st.ledValues[k]? = some v := by
    have := hfix t ht
    rw [hrun] at this
    simpa using this
  obtain ⟨w, hw, hw8⟩ := values_get _ hv' k hk
  rw [hv] at hw
  cases hw
  refine ⟨st, stepState st v, hrun, ?_, hL, hB, hw8, ?_⟩
  · rw [run_succ, hrun]
    exact ISR_step st v (by omega) (by omega) (by rw [hL]; exact hv) hw8
  · rw [stepState_regs, hL, hB]

theorem subframe_first9 :
    (List.range 54).filter (fun t => decide (t < 9)) = List.range 9 := by
  rfl

theorem count_below (v : Nat) (hv : v ≤ 8) :
    ((List.range 9).filter (fun t => decide (t < v))).length = v := by
  interval_cases v <;> rfl

/-! ## Properties of the program -/

/-! ### Pin safety -/

/-- C1: a tick leaves the registers either both 0 or in the final state of
`turnOnLED` for an entry of `ledDefs`.  In every such register state `r`, and
for every LED index `k` in 0..5: at most one LED conducts and `LEDPORT` has at
most one pin bit set, in `r`, after `turnOffLEDs`, after `turnOnLED k` and
after each of the four register writes of `turnOnLED k` started in `r`; after
`turnOnLED k` the LED that conducts is exactly LED `k`. -/
theorem charlieplex_safe (k : Nat) (hk : k < 6) (r : Regs) (hr : TickLeft r) :
    (∀ s s', ISR s = some s' → TickLeft s'.regs) ∧
    SafeRegs r ∧ SafeRegs (turnOffLEDs r) ∧ TickLeft (turnOffLEDs r) ∧
    ∃ led r', ledDefs[k]? = some led ∧ turnOnLED k r = some r' ∧
      r' = { LEDDIR := led.anodePin ||| led.cathodePin, LEDPORT := led.anodePin } ∧
      led.anodePin ≠ led.cathodePin ∧
      SafeRegs r' ∧ (∀ j < 6, conductsAt r' j = true ↔ j = k) ∧
      (turnOnLEDWrites led r).getLast? = some r' ∧
      (turnOnLEDWrites led r).length = 4 ∧
      ∀ t ∈ turnOnLEDWrites led r, SafeRegs t := by
  have hoff : turnOffLEDs r = { LEDDIR := 0, LEDPORT := 0 } := rfl
  rw [hoff]
  refine ⟨ISR_regs, tickLeft_safe r hr, by decide, Or.inl rfl, ?_⟩
  rcases hr with rfl | ⟨k', led', hk', rfl⟩
  · interval_cases k <;>
      exact ⟨_, _, rfl, rfl, rfl, by decide, by decide, by decide, rfl, rfl, by decide⟩
  · have := ledDefs_lt hk'
    interval_cases k' <;> simp [ledDefs] at hk' <;> subst hk' <;>
      interval_cases k <;>
        exact ⟨_, _, rfl, rfl, rfl, by decide, by decide, by decide, rfl, rfl, by decide⟩

/-- LED 3 turned on in the register state left by LED 0. -/
theorem charlieplex_safe_witness :
    TickLeft { LEDDIR := 3, LEDPORT := 1 } ∧
    ((∀ s s', ISR s = some s' → TickLeft s'.regs) ∧
    SafeRegs { LEDDIR := 3, LEDPORT := 1 } ∧
    SafeRegs (turnOffLEDs { LEDDIR := 3, LEDPORT := 1 }) ∧
    TickLeft (turnOffLEDs { LEDDIR := 3, LEDPORT := 1 }) ∧
    ∃ led r', ledDefs[3]? = some led ∧ turnOnLED 3 { LEDDIR := 3, LEDPORT := 1 } = some r' ∧
      r' = { LEDDIR := led.anodePin ||| led.cathodePin, LEDPORT := led.anodePin } ∧
      led.anodePin ≠ led.cathodePin ∧
      SafeRegs r' ∧ (∀ j < 6, conductsAt r' j = true ↔ j = 3) ∧
      (turnOnLEDWrites led { LEDDIR := 3, LEDPORT := 1 }).getLast? = some r' ∧
      (turnOnLEDWrites led { LEDDIR := 3, LEDPORT := 1 }).length = 4 ∧
      ∀ t ∈ turnOnLEDWrites led { LEDDIR := 3, LEDPORT := 1 }, SafeRegs t) :=
  ⟨Or.inr ⟨0, _, rfl, rfl⟩,
    charlieplex_safe 3 (by decide) { LEDDIR := 3, LEDPORT := 1 } (Or.inr ⟨0, _, rfl, rfl⟩)⟩

/-! ### Brightness masks -/

/-- C2: for every level `L` in 0..8 the mask `brightnessMasks[L]` is
`2 ^ L - 1`, has exactly `L` set bits, namely the bits below `L`, and for
`L < 8` every set bit of it is set in `brightnessMasks[L + 1]`. -/
theorem brightnessMasks_prefix (L : Nat) (hL : L ≤ 8) :
    ∃ m, brightnessMasks[L]? = some m ∧ m = 2 ^ L - 1 ∧ popCount8 m = L ∧
      (∀ b, m.testBit b = decide (b < L)) ∧
      (L < 8 → ∃ m', brightnessMasks[L + 1]? = some m' ∧
        ∀ b, m.testBit b = true → m'.testBit b = true) := by
  refine ⟨2 ^ L - 1, brightnessMasks_eq L hL, rfl, ?_, ?_, ?_⟩
  · interval_cases L <;> decide
  · intro b; exact Nat.testBit_two_pow_sub_one L b
  · intro h8
    refine ⟨2 ^ (L + 1) - 1, brightnessMasks_eq (L + 1) (by omega), ?_⟩
    intro b hb
    rw [Nat.testBit_two_pow_sub_one] at hb ⊢
    simp only [decide_eq_true_eq] at hb ⊢
    omega

/-- The mask of level 3. -/
theorem brightnessMasks_prefix_witness :
    ∃ m, brightnessMasks[3]? = some m ∧ m = 2 ^ 3 - 1 ∧ popCount8 m = 3 ∧
      (∀ b, m.testBit b = decide (b < 3)) ∧
      (3 < 8 → ∃ m', brightnessMasks[3 + 1]? = some m' ∧
        ∀ b, m.testBit b = true → m'.testBit b = true) :=
  brightnessMasks_prefix 3 (by decide)

/-! ### LED topology -/

/-- C3: `ledDefs` has 6 entries over the pins `A = 0x01`, `B = 0x02`,
`C = 0x04`; every entry has distinct anode and cathode pins, the entries are
pairwise distinct, every ordered pair of distinct pins is an entry, and entries
`2m` and `2m+1` are each other with anode and cathode swapped. -/
theorem ledDefs_topology :
    ArraySize ledDefs = 6 ∧ pins = [0x01, 0x02, 0x04] ∧
    (∀ e ∈ ledDefs, e.anodePin ∈ pins ∧ e.cathodePin ∈ pins ∧ e.anodePin ≠ e.cathodePin) ∧
    ledDefs.Nodup ∧
    (∀ p ∈ pins, ∀ q ∈ pins, p ≠ q → ({ anodePin := p, cathodePin := q } : LEDPin) ∈ ledDefs) ∧
    (∀ m < 3, ∃ e f, ledDefs[2 * m]? = some e ∧ ledDefs[2 * m + 1]? = some f ∧
      f.anodePin = e.cathodePin ∧ f.cathodePin = e.anodePin) := by
  refine ⟨rfl, rfl, by decide, by decide, by decide, ?_⟩
  intro m hm
  interval_cases m <;> exact ⟨_, _, rfl, rfl, rfl, rfl⟩

/-! ### Scan cursor -/

/-- C4: from the zero-initialised state the scan cursor after `n` ticks is
`((n / 9) % 6, n % 9)`; it is back at `(0, 0)` exactly when `54` divides `n`,
so the period is exactly 54 ticks; and the same cursor formula holds from any
state with cursor `(0, 0)` and a valid brightness table, whatever the
brightness values, tick counter and animation cursor are. -/
theorem scan_cursor_period :
    (∀ n, cursorAfter n init = some ((n / 9) % 6, n % 9)) ∧
    (∀ n, cursorAfter (n + 54) init = cursorAfter n init) ∧
    (∀ n, cursorAfter n init = some (0, 0) ↔ 54 ∣ n) ∧
    (∀ s : State, s.curLED = 0 → s.curBit = 0 → ValuesOK s.ledValues →
      ∀ n, cursorAfter n s = some ((n / 9) % 6, n % 9)) := by
  have gen : ∀ s : State, s.curLED = 0 → s.curBit = 0 → ValuesOK s.ledValues →
      ∀ n, cursorAfter n s = some ((n / 9) % 6, n % 9) := by
    intro s hl hb hv n
    obtain ⟨s', hrun, _, hl', hb'⟩ := run_scan s (by omega) (by omega) hv n
    unfold cursorAfter
    rw [hrun, Option.map_some', hl', hb', hl, hb]
    simp
  have h0 : ∀ n, cursorAfter n init = some ((n / 9) % 6, n % 9) :=
    gen init rfl rfl (by decide)
  refine ⟨h0, ?_, ?_, gen⟩
  · intro n
    rw [h0, h0]
    have h1 : (n + 54) / 9 % 6 = n / 9 % 6 := by omega
    have h2 : (n + 54) % 9 = n % 9 := by omega
    rw [h1, h2]
  · intro n
    rw [h0]
    simp only [Option.some.injEq, Prod.mk.injEq, Nat.dvd_iff_mod_eq_zero]
    omega

/-! ### Driven ticks of a scan -/

/-- C5: for a scan of 54 ticks that starts at cursor `(0, 0)` and during which
the brightness table stays `vals` (six values in 0..8), every tick succeeds,
tick `t` is taken at cursor `(t / 9, t % 9)`, and LED `k` is left driven on by
exactly the ticks taken at cursor `(k, b)` with `b < vals[k]`; these are
`vals[k]` ticks, none for value 0 and the eight ticks with sub-bit 0..7 for
value 8. -/
theorem pwm_on_ticks (s : State) (vals : List Nat) (k : Nat) (hk : k < 6)
    (hl : s.curLED = 0) (hb : s.curBit = 0) (hvals : ValuesOK vals)
    (hfix : ∀ t < 54, (run t s).map (fun st => st.ledValues) = some vals) :
    ∃ v, vals[k]? = some v ∧
      (∀ t ≤ 54, cursorAfter t s = some ((t / 9) % 6, t % 9)) ∧
      (∀ t < 54, (litAfter s (t + 1) k = true ↔ (t / 9 = k ∧ t % 9 < v))) ∧
      ((List.range 54).filter (fun t => litAfter s (t + 1) k)).length = v ∧
      (v = 0 → ∀ t < 54, litAfter s (t + 1) k = false) ∧
      (v = 8 → ∀ t < 54, (litAfter s (t + 1) k = true ↔ (t / 9 = k ∧ t % 9 < 8))) := by
  obtain ⟨v, hv, hv8⟩ := values_get vals hvals k hk
  have h0 : s.ledValues = vals := by
    have := hfix 0 (by omega)
    simpa [run] using this
  have hlit := fixed_lit s vals k v hk hl hb hvals hfix hv
  refine ⟨v, hv, ?_, hlit, ?_, ?_, ?_⟩
  · intro t _
    obtain ⟨s', hrun, _, hl', hb'⟩ := run_scan s (by omega) (by omega) (h0 ▸ hvals) t
    unfold cursorAfter
    rw [hrun, Option.map_some', hl', hb', hl, hb]
    simp
  · rw [← count_on k v hk hv8]
    congr 1
    apply List.filter_congr
    intro t ht
    have ht' : t < 54 := List.mem_range.mp ht
    rw [Bool.eq_iff_iff, hlit t ht', decide_eq_true_iff]
  · intro hz t ht
    rw [Bool.eq_false_iff]
    intro h
    have := (hlit t ht).mp h
    omega
  · intro h8 t ht
    rw [hlit t ht, h8]

/-- A scan from a state whose brightness table is `[0, 1, 2, 3, 4, 8]`. -/
theorem pwm_on_ticks_witness :
    ∃ v, [0, 1, 2, 3, 4, 8][5]? = some v ∧
      (∀ t ≤ 54, cursorAfter t { init with ledValues := [0, 1, 2, 3, 4, 8] }
        = some ((t / 9) % 6, t % 9)) ∧
      (∀ t < 54, (litAfter { init with ledValues := [0, 1, 2, 3, 4, 8] } (t + 1) 5 = true ↔
        (t / 9 = 5 ∧ t % 9 < v))) ∧
      ((List.range 54).filter
        (fun t => litAfter { init with ledValues := [0, 1, 2, 3, 4, 8] } (t + 1) 5)).length = v ∧
      (v = 0 → ∀ t < 54, litAfter { init with ledValues := [0, 1, 2, 3, 4, 8] } (t + 1) 5 = false) ∧
      (v = 8 → ∀ t < 54, (litAfter { init with ledValues := [0, 1, 2, 3, 4, 8] } (t + 1) 5 = true ↔
        (t / 9 = 5 ∧ t % 9 < 8))) :=
  pwm_on_ticks { init with ledValues := [0, 1, 2, 3, 4, 8] } [0, 1, 2, 3, 4, 8] 5
    (by decide) rfl rfl (by decide) (by decide)

/-! ### Duty fraction -/

/-- C6 as stated fails at level 8: in the scan that starts after 21006 ticks,
during which every brightness value stays 8, the sub-frame of LED 0 has 9
ticks, the LED is driven on for 8 of them and is off after the tick with
sub-bit 8, which belongs to the sub-frame; so the LED is not on at every
sub-frame tick and the fraction is not 8/8. -/
theorem duty_level8_not_full :
    run 21006 init = some allEight ∧
    (∀ t < 54, (run t allEight).map (fun st => st.ledValues) = some [8, 8, 8, 8, 8, 8]) ∧
    (subframeTicks allEight 0).length = 9 ∧ (onTicks allEight 0).length = 8 ∧
    8 ∈ subframeTicks allEight 0 ∧ litAfter allEight (8 + 1) 0 = false ∧
    dutyFraction allEight 0 ≠ (8 : ℚ) / 8 := by
  have h9 : (subframeTicks allEight 0).length = 9 := by decide
  have h8 : (onTicks allEight 0).length = 8 := by decide
  refine ⟨by rw [run_init_state]; decide, by decide, h9, h8, by decide, by decide, ?_⟩
  unfold dutyFraction
  rw [h9, h8]
  norm_num

/-- C6 amended: in the sub-frame of LED `k`, started at a state with cursor
`(k, 0)` and a valid brightness table, during which the brightness value of
LED `k` stays `v` (the other values may change), the sub-frame is the 9 ticks
taken at cursor `(k, 0) .. (k, 8)`, the LED is left driven on by exactly the
ticks with sub-bit below `v`, `v` ticks in all, so the fraction is `v / 9`; it
equals `v / 8` exactly when `v = 0`, and for every `v` in 0..8 it differs from
`v / 8` by at most one sub-frame tick, that is 1/9 of the sub-frame; at
`v = 8` the LED is on after the ticks with sub-bit 0..7 and off after the tick
with sub-bit 8. -/
theorem duty_fraction (s : State) (k v : Nat) (hk : k < 6) (hl : s.curLED = k)
    (hb : s.curBit = 0) (hvals : ValuesOK s.ledValues)
    (hfix : ∀ t < 9, (run t s).bind (fun st => st.ledValues[k]?) = some v) :
    v ≤ 8 ∧
    subframeTicks s k = List.range 9 ∧
    (∀ t < 9, cursorAfter t s = some (k, t)) ∧
    (∀ t < 9, (litAfter s (t + 1) k = true ↔ t < v)) ∧
    (onTicks s k).length = v ∧
    dutyFraction s k = (v : ℚ) / 9 ∧
    (dutyFraction s k = (v : ℚ) / 8 ↔ v = 0) ∧
    |dutyFraction s k - (v : ℚ) / 8| ≤ 1 / 9 ∧
    (v = 8 → (∀ t < 8, litAfter s (t + 1) k = true) ∧ litAfter s (8 + 1) k = false) := by
  have htick := subframe_tick s k v hk hl hb hvals hfix
  have hv8 : v ≤ 8 := by
    obtain ⟨_, _, _, _, _, _, h, _⟩ := htick 0 (by omega)
    exact h
  have hlit : ∀ t < 9, (litAfter s (t + 1) k = true ↔ t < v) := by
    intro t ht
    obtain ⟨st, st', _, hrun', _, _, _, hregs⟩ := htick t ht
    unfold litAfter
    rw [hrun']
    simp only [hregs]
    rw [conductsAt_drive _ _ _ _ hk hk]
    simp
  have hsub : subframeTicks s k = List.range 9 := by
    rw [← subframe_first9]
    unfold subframeTicks
    apply List.filter_congr
    intro t ht
    have ht' : t < 54 := List.mem_range.mp ht
    obtain ⟨st, hrun, _, hl', _⟩ := run_scan s (by omega) (by omega) hvals t
    rw [hrun]
    show (st.curLED == k) = decide (t < 9)
    rw [Bool.eq_iff_iff, beq_iff_eq, decide_eq_true_iff, hl', hl, hb]
    omega
  have hon : (onTicks s k).length = v := by
    unfold onTicks
    rw [hsub, ← count_below v hv8]
    congr 1
    apply List.filter_congr
    intro t ht
    have ht' : t < 9 := List.mem_range.mp ht
    rw [Bool.eq_iff_iff, hlit t ht', decide_eq_true_iff]
  have hfrac : dutyFraction s k = (v : ℚ) / 9 := by
    unfold dutyFraction
    rw [hon, hsub, List.length_range]
    norm_num
  have hvq : (v : ℚ) ≤ 8 := by exact_mod_cast hv8
  have hv0 : (0 : ℚ) ≤ (v : ℚ) := Nat.cast_nonneg v
  refine ⟨hv8, hsub, ?_, hlit, hon, hfrac, ?_, ?_, ?_⟩
  · intro t ht
    obtain ⟨st, _, hrun, _, hL, hB, _, _⟩ := htick t ht
    unfold cursorAfter
    rw [hrun, Option.map_some', hL, hB]
  · rw [hfrac]
    constructor
    · intro h
      have h2 : (v : ℚ) = 0 := by linarith
      exact_mod_cast h2
    · intro h
      rw [h]; norm_num
  · rw [hfrac, abs_le]
    constructor <;> linarith
  · intro h8
    refine ⟨fun t ht => (hlit t (by omega)).mpr (by omega), ?_⟩
    rw [Bool.eq_false_iff]
    intro h
    have := (hlit 8 (by omega)).mp h
    omega

/-- The sub-frame of LED 2 that starts after 10494 ticks: `animPulse` is called
by its sixth tick and changes the table from `[3,3,3,3,3,3]` to
`[4,4,3,3,3,3]`, while the value of LED 2 stays 3. -/
theorem duty_fraction_witness :
    run 10494 init = some midScan ∧
    (run 6 midScan).map (fun st => st.ledValues) = some [4, 4, 3, 3, 3, 3] ∧
    (3 ≤ 8 ∧
    subframeTicks midScan 2 = List.range 9 ∧
    (∀ t < 9, cursorAfter t midScan = some (2, t)) ∧
    (∀ t < 9, (litAfter midScan (t + 1) 2 = true ↔ t < 3)) ∧
    (onTicks midScan 2).length = 3 ∧
    dutyFraction midScan 2 = ((3 : Nat) : ℚ) / 9 ∧
    (dutyFraction midScan 2 = ((3 : Nat) : ℚ) / 8 ↔ 3 = 0) ∧
    |dutyFraction midScan 2 - ((3 : Nat) : ℚ) / 8| ≤ 1 / 9 ∧
    (3 = 8 → (∀ t < 8, litAfter midScan (t + 1) 2 = true) ∧
      litAfter midScan (8 + 1) 2 = false)) :=
  ⟨by rw [run_init_state]; decide, by decide,
    duty_fraction midScan 2 3 (by decide) rfl rfl (by decide) (by decide)⟩

/-! ### Animator cadence -/

/-- C7: from the zero-initialised state, after `n` ticks `tickCount` is
`n % 750` (so below 750) and `animPulse` has been called `n / 750` times; the
call count goes up by one on tick number `n + 1` exactly when `750` divides
`n + 1`, and stays the same on every other tick. -/
theorem animator_cadence (n : Nat) :
    ∃ s s', run n init = some s ∧ run (n + 1) init = some s' ∧
      s.tickCount = n % 750 ∧ s.tickCount < 750 ∧ s.animCalls = n / 750 ∧
      s'.animCalls = s.animCalls + (if 750 ∣ n + 1 then 1 else 0) := by
  obtain ⟨s, hrun, _, _, ht, hc, _⟩ := run_init n
  obtain ⟨s', hrun', _, _, _, hc', _⟩ := run_init (n + 1)
  refine ⟨s, s', hrun, hrun', ht, by omega, hc, ?_⟩
  rw [hc, hc']
  simp only [Nat.dvd_iff_mod_eq_zero]
  split_ifs <;> omega

/-! ### Frames written by the animator -/

/-- C8: for a cursor value `i` in 0..53 (and the six-entry brightness table),
one call of `animPulse` succeeds, writes `data[i]` to LEDs 4 and 5,
`data[(i+1) mod 54]` to LEDs 2 and 3, `data[(i+2) mod 54]` to LEDs 0 and 1, and
leaves the cursor at `(i+1) mod 54`; at `i = 0` all six values are 0 and at
`i = 6` all six values are 1. -/
theorem animPulse_frames (s : State) (hi : s.i < 54) (hlen : ArraySize s.ledValues = 6) :
    ∃ da db dc s', data[s.i]? = some da ∧ data[(s.i + 1) % 54]? = some db ∧
      data[(s.i + 2) % 54]? = some dc ∧ animPulse s = some s' ∧
      s'.ledValues = [dc, dc, db, db, da, da] ∧ s'.i = (s.i + 1) % 54 ∧
      (s.i = 0 → s'.ledValues = [0, 0, 0, 0, 0, 0]) ∧
      (s.i = 6 → s'.ledValues = [1, 1, 1, 1, 1, 1]) := by
  have hb : nextIdx (clampIdx s.i) = (s.i + 1) % 54 := by
    rw [clampIdx_of_lt _ hi, nextIdx_mod _ hi]
  have hc : nextIdx (nextIdx (clampIdx s.i)) = (s.i + 2) % 54 := by
    rw [hb, nextIdx_mod _ (by omega)]; omega
  have hpulse := animPulse_eq s
  rw [hc, hb, clampIdx_of_lt _ hi, writePairs_eq _ hlen, nextCursor_mod _ hi] at hpulse
  refine ⟨frameAt s.i, frameAt ((s.i + 1) % 54), frameAt ((s.i + 2) % 54), _,
    data_get _ hi, data_get _ (by omega), data_get _ (by omega), hpulse, rfl, rfl, ?_, ?_⟩
  · intro h0
    show [_, _, _, _, _, _] = _
    rw [h0]; rfl
  · intro h6
    show [_, _, _, _, _, _] = _
    rw [h6]; rfl

theorem animPulse_frames_witness :
    ∃ da db dc s', data[({ init with i := 6 } : State).i]? = some da ∧
      data[(({ init with i := 6 } : State).i + 1) % 54]? = some db ∧
      data[(({ init with i := 6 } : State).i + 2) % 54]? = some dc ∧
      animPulse { init with i := 6 } = some s' ∧
      s'.ledValues = [dc, dc, db, db, da, da] ∧
      s'.i = (({ init with i := 6 } : State).i + 1) % 54 ∧
      (({ init with i := 6 } : State).i = 0 → s'.ledValues = [0, 0, 0, 0, 0, 0]) ∧
      (({ init with i := 6 } : State).i = 6 → s'.ledValues = [1, 1, 1, 1, 1, 1]) :=
  animPulse_frames { init with i := 6 } (by decide) (by decide)

/-! ### Animation cursor -/

/-- C9: for a cursor value `i` in 0..53, a call of `animPulse` moves the cursor
to `(i+1) mod 54`, which differs from `i`; after `m` calls the cursor is
`(i+m) mod 54`; 54 calls bring it back to `i`, and no number of calls `m` with
`0 < m < 54` does. -/
theorem animCursor_cycle (s : State) (hi : s.i < 54) :
    (∃ s', animPulse s = some s' ∧ s'.i = (s.i + 1) % 54 ∧ s'.i ≠ s.i) ∧
    (∀ m, ∃ sm, animPulseN m s = some sm ∧ sm.i = (s.i + m) % 54) ∧
    (∃ s54, animPulseN 54 s = some s54 ∧ s54.i = s.i) ∧
    (∀ m, 0 < m → m < 54 → ∃ sm, animPulseN m s = some sm ∧ sm.i ≠ s.i) := by
  refine ⟨⟨_, animPulse_eq s, ?_, ?_⟩, animPulseN_cursor s hi, ?_, ?_⟩
  · exact nextCursor_mod _ hi
  · show nextCursor s.i ≠ s.i
    rw [nextCursor_mod _ hi]; omega
  · obtain ⟨sm, hm, hcur⟩ := animPulseN_cursor s hi 54
    exact ⟨sm, hm, by omega⟩
  · intro m h0 h54
    obtain ⟨sm, hm, hcur⟩ := animPulseN_cursor s hi m
    exact ⟨sm, hm, by omega⟩

theorem animCursor_cycle_witness :
    (∃ s', animPulse { init with i := 53 } = some s' ∧
      s'.i = (({ init with i := 53 } : State).i + 1) % 54 ∧
      s'.i ≠ ({ init with i := 53 } : State).i) ∧
    (∀ m, ∃ sm, animPulseN m { init with i := 53 } = some sm ∧
      sm.i = (({ init with i := 53 } : State).i + m) % 54) ∧
    (∃ s54, animPulseN 54 { init with i := 53 } = some s54 ∧
      s54.i = ({ init with i := 53 } : State).i) ∧
    (∀ m, 0 < m → m < 54 → ∃ sm, animPulseN m { init with i := 53 } = some sm ∧
      sm.i ≠ ({ init with i := 53 } : State).i) :=
  animCursor_cycle { init with i := 53 } (by decide)

/-! ### Bounds in reachable states -/

/-- C10: every state reached from the zero-initialised state by `n` ticks has
`curLED < 6`, `curBit < 9`, `i < 54`, `tickCount < 750` and six brightness
values in 0..8; every table read of the next tick is inside its table, and the
next tick does not take a failing branch. -/
theorem reachable_in_bounds (n : Nat) :
    ∃ s, run n init = some s ∧
      s.curLED < 6 ∧ s.curBit < 9 ∧ s.i < 54 ∧ s.tickCount < 750 ∧
      ArraySize s.ledValues = 6 ∧ (∀ k < 6, ∃ v, s.ledValues[k]? = some v ∧ v ≤ 8) ∧
      (∃ v mask led, s.ledValues[s.curLED]? = some v ∧ brightnessMasks[v]? = some mask ∧
        ledDefs[s.curLED]? = some led) ∧
      (∃ da db dc, dataAt (readPositions s.i).1 = some da ∧
        dataAt (readPositions s.i).2.1 = some db ∧
        dataAt (readPositions s.i).2.2 = some dc) ∧
      (∃ s', ISR s = some s') ∧ (∃ s', animPulse s = some s') := by
  obtain ⟨s, hrun, hl, hb, ht, _, hi, hv, _⟩ := run_init n
  have hL : s.curLED < 6 := by omega
  have hB : s.curBit < 9 := by omega
  obtain ⟨v, hv1, hv8⟩ := values_get _ hv _ hL
  refine ⟨s, hrun, hL, hB, by omega, by omega, hv.1, fun k hk => values_get _ hv k hk,
    ?_, ?_, ⟨_, ISR_step s v hL hB hv1 hv8⟩, ⟨_, animPulse_eq s⟩⟩
  · have : s.curLED < ledDefs.length := by simpa [ledDefs] using hL
    exact ⟨v, _, _, hv1, brightnessMasks_eq v hv8, List.getElem?_eq_getElem this⟩
  · rw [readPositions_eq]
    exact ⟨_, _, _, dataAt_cast _ (clampIdx_lt _), dataAt_cast _ (nextIdx_lt _),
      dataAt_cast _ (nextIdx_lt _)⟩

/-! ### Frame table -/

/-- C11 as stated fails: the table is not an ascending ramp 0..8 followed by a
descending ramp 8..0 with every level held 3 times.  Entry 3 is still 0 where
that ramp has 1, level 0 is held for the first 6 entries, and level 8 fills
3 entries where that ramp has 6. -/
theorem data_not_triangleRamp :
    data ≠ triangleRamp ∧ ArraySize triangleRamp = 54 ∧
    data[3]? = some 0 ∧ triangleRamp[3]? = some 1 ∧
    data.take 6 = [0, 0, 0, 0, 0, 0] ∧
    data.count 8 = 3 ∧ triangleRamp.count 8 = 6 := by
  decide

/-- C11 amended: `data` has 54 entries, each in 0..8, in 18 groups of 3 equal
consecutive entries with the levels 0, 0, 1, 2, .., 8, 7, .., 1, 0: level 0
for the first 6 entries, then ascending through 1..8 and descending through
7..0 with each level held for exactly 3 entries; level 8 fills 3 entries. -/
theorem data_ramp :
    ArraySize data = 54 ∧ (∀ v ∈ data, v ≤ 8) ∧
    dataLevels = [0, 0, 1, 2, 3, 4, 5, 6, 7, 8, 7, 6, 5, 4, 3, 2, 1, 0] ∧
    data = holdEach 3 dataLevels ∧
    (∀ g < 18, ∃ l, dataLevels[g]? = some l ∧
      data[3 * g]? = some l ∧ data[3 * g + 1]? = some l ∧ data[3 * g + 2]? = some l) ∧
    data.count 8 = 3 := by
  refine ⟨rfl, by decide, rfl, rfl, ?_, rfl⟩
  intro g hg
  interval_cases g <;> exact ⟨_, rfl, rfl, rfl, rfl⟩

/-! ### Frame effects -/

/-- C12: a tick of the handler taken with `tickCount + 1 < 750` leaves the six
brightness values and the animation cursor unchanged (and does not call
`animPulse`); such a tick succeeds from every state with a valid cursor and
brightness table; and a call of `animPulse` succeeds from every state and
leaves `curLED`, `curBit`, `tickCount` and both pin registers unchanged. -/
theorem frame_effects :
    (∀ s s' : State, s.tickCount + 1 < 750 → ISR s = some s' →
      s'.ledValues = s.ledValues ∧ s'.i = s.i ∧ s'.animCalls = s.animCalls) ∧
    (∀ s : State, s.tickCount + 1 < 750 → s.curLED < 6 → s.curBit < 9 →
      ValuesOK s.ledValues →
      ∃ s', ISR s = some s' ∧ s'.ledValues = s.ledValues ∧ s'.i = s.i) ∧
    (∀ s : State, ∃ p, animPulse s = some p ∧ p.curLED = s.curLED ∧ p.curBit = s.curBit ∧
      p.tickCount = s.tickCount ∧ p.regs.LEDDIR = s.regs.LEDDIR ∧
      p.regs.LEDPORT = s.regs.LEDPORT) := by
  refine ⟨ISR_quiet, ?_, ?_⟩
  · intro s hq hL hB hv
    obtain ⟨v, hv1, hv8⟩ := values_get _ hv _ hL
    have hs := ISR_step s v hL hB hv1 hv8
    obtain ⟨h1, h2, _⟩ := ISR_quiet s _ hq hs
    exact ⟨_, hs, h1, h2⟩
  · intro s
    exact ⟨_, animPulse_eq s, rfl, rfl, rfl, rfl, rfl⟩

/-! ### Travelling wave -/

/-- C13: for a cursor value in 0..53 (and the six-entry brightness table), two
consecutive calls of `animPulse` succeed; the second gives LEDs 4 and 5 the
value the first gave LEDs 2 and 3, and gives LEDs 2 and 3 the value the first
gave LEDs 0 and 1. -/
theorem pulse_shift (s : State) (hi : s.i < 54) (hlen : ArraySize s.ledValues = 6) :
    ∃ s1 s2 w x y z, animPulse s = some s1 ∧ animPulse s1 = some s2 ∧
      s1.ledValues = [z, z, y, y, x, x] ∧ s2.ledValues = [w, w, z, z, y, y] := by
  obtain ⟨s1, h1, hv1, hi1, hl1⟩ := animPulse_values s hlen
  obtain ⟨s2, h2, hv2, _, _⟩ := animPulse_values s1 hl1
  have hc : clampIdx (nextCursor s.i) = nextIdx s.i := by
    rw [clampIdx_of_lt _ (nextCursor_lt _), nextCursor_mod _ hi, nextIdx_mod _ hi]
  refine ⟨s1, s2, frameAt (nextIdx (nextIdx (nextIdx s.i))), frameAt s.i,
    frameAt (nextIdx s.i), frameAt (nextIdx (nextIdx s.i)), h1, h2, ?_, ?_⟩
  · rw [hv1, clampIdx_of_lt _ hi]; rfl
  · rw [hv2, hi1, hc]; rfl

/-- Two calls across the end of the frame table, from cursor 52. -/
theorem pulse_shift_witness :
    ∃ s1 s2 w x y z, animPulse { init with i := 52 } = some s1 ∧ animPulse s1 = some s2 ∧
      s1.ledValues = [z, z, y, y, x, x] ∧ s2.ledValues = [w, w, z, z, y, y] :=
  pulse_shift { init with i := 52 } (by decide) (by decide)

/-! ### The firing tick -/

/-- C14: on a tick taken with `tickCount = 749` from a state with a valid
cursor and brightness table, the pin registers are those decided from the
brightness value of the current LED and the cursor before the tick, the same
as on that tick taken without firing, and the cursor advances the same way;
the new state holds the brightness values and cursor written by `animPulse`,
and the following tick decides from these new values. -/
theorem firing_tick (s : State) (ht : s.tickCount = 749) (hL : s.curLED < 6)
    (hB : s.curBit < 9) (hv : ValuesOK s.ledValues) :
    ∃ v mask s' q p,
      s.ledValues[s.curLED]? = some v ∧ brightnessMasks[v]? = some mask ∧
      ISR s = some s' ∧
      (if mask &&& Bit s.curBit ≠ 0 then turnOnLED s.curLED s.regs
        else some (turnOffLEDs s.regs)) = some s'.regs ∧
      ISR { s with tickCount := 0 } = some q ∧ q.ledValues = s.ledValues ∧
      q.regs = s'.regs ∧ q.curLED = s'.curLED ∧ q.curBit = s'.curBit ∧
      animPulse s = some p ∧ s'.ledValues = p.ledValues ∧ s'.i = p.i ∧
      s'.animCalls = s.animCalls + 1 ∧ s'.tickCount = 0 ∧
      ∃ v' mask' s'', s'.ledValues[s'.curLED]? = some v' ∧
        brightnessMasks[v']? = some mask' ∧ ISR s' = some s'' ∧
        (if mask' &&& Bit s'.curBit ≠ 0 then turnOnLED s'.curLED s'.regs
          else some (turnOffLEDs s'.regs)) = some s''.regs := by
  obtain ⟨v, hv1, hv8⟩ := values_get _ hv _ hL
  have hs := ISR_step s v hL hB hv1 hv8
  have hq := ISR_step { s with tickCount := 0 } v hL hB hv1 hv8
  have hf : fires s = true := by unfold fires; rw [ht]; decide
  have hnf : fires { s with tickCount := 0 } = false := by
    unfold fires
    simp
  have hL' : (stepState s v).curLED < 6 := by
    rw [stepState_curLED]; unfold nextLED; split_ifs <;> omega
  have hB' : (stepState s v).curBit < 9 := by
    rw [stepState_curBit]; unfold nextBit; split_ifs <;> omega
  have hv' := stepState_values s v hv
  obtain ⟨v', hv1', hv8'⟩ := values_get _ hv' _ hL'
  have hs' := ISR_step _ v' hL' hB' hv1' hv8'
  refine ⟨v, _, stepState s v, stepState { s with tickCount := 0 } v, _, hv1,
    brightnessMasks_eq v hv8, hs, ?_, hq, ?_, ?_, ?_, ?_, animPulse_eq s, ?_, ?_, ?_, ?_,
    v', _, _, hv1', brightnessMasks_eq v' hv8', hs', ?_⟩
  · rw [stepState_regs]; exact scan_regs _ _ _ _ hL hB hv8
  · unfold stepState; rw [hnf]; rfl
  · rw [stepState_regs, stepState_regs]
  · rw [stepState_curLED, stepState_curLED]
  · rw [stepState_curBit, stepState_curBit]
  · unfold stepState; rw [hf]; rfl
  · unfold stepState; rw [hf]; rfl
  · unfold stepState; rw [hf]; rfl
  · unfold stepState; rw [hf]; rfl
  · rw [stepState_regs (stepState s v) v']; exact scan_regs _ _ _ _ hL' hB' hv8'

/-- The firing tick from a state with brightness 8 on the current LED, whose
animation cursor points at the first level-1 frame. -/
theorem firing_tick_witness :
    ∃ v mask s' q p,
      ({ allEight with tickCount := 749, i := 6 } : State).ledValues[
        ({ allEight with tickCount := 749, i := 6 } : State).curLED]? = some v ∧
      brightnessMasks[v]? = some mask ∧
      ISR { allEight with tickCount := 749, i := 6 } = some s' ∧
      (if mask &&& Bit ({ allEight with tickCount := 749, i := 6 } : State).curBit ≠ 0
        then turnOnLED ({ allEight with tickCount := 749, i := 6 } : State).curLED
          ({ allEight with tickCount := 749, i := 6 } : State).regs
        else some (turnOffLEDs ({ allEight with tickCount := 749, i := 6 } : State).regs))
        = some s'.regs ∧
      ISR { ({ allEight with tickCount := 749, i := 6 } : State) with tickCount := 0 }
        = some q ∧
      q.ledValues = ({ allEight with tickCount := 749, i := 6 } : State).ledValues ∧
      q.regs = s'.regs ∧ q.curLED = s'.curLED ∧ q.curBit = s'.curBit ∧
      animPulse { allEight with tickCount := 749, i := 6 } = some p ∧
      s'.ledValues = p.ledValues ∧ s'.i = p.i ∧
      s'.animCalls = ({ allEight with tickCount := 749, i := 6 } : State).animCalls + 1 ∧
      s'.tickCount = 0 ∧
      ∃ v' mask' s'', s'.ledValues[s'.curLED]? = some v' ∧
        brightnessMasks[v']? = some mask' ∧ ISR s' = some s'' ∧
        (if mask' &&& Bit s'.curBit ≠ 0 then turnOnLED s'.curLED s'.regs
          else some (turnOffLEDs s'.regs)) = some s''.regs :=
  firing_tick { allEight with tickCount := 749, i := 6 } rfl (by decide) (by decide)
    (by decide)

/-! ### Full period -/

/-- C16: after 40500 ticks from the zero-initialised state the core state
`(curLED, curBit, tickCount, i, ledValues)` and the pin registers are those of
the initial state; after no `n` with `0 < n < 40500` ticks is the core state
the initial one; and for every `n` the core state and the pin registers after
`n + 40500` ticks are those after `n` ticks. -/
theorem full_period :
    (∃ s, run 40500 init = some s ∧ coreState s = coreState init ∧ s.regs = init.regs) ∧
    (∀ n, 0 < n → n < 40500 → ∃ s, run n init = some s ∧ coreState s ≠ coreState init) ∧
    (∀ n, ∃ s s', run n init = some s ∧ run (n + 40500) init = some s' ∧
      coreState s' = coreState s ∧ s'.regs = s.regs) := by
  refine ⟨⟨_, run_init_state 40500, by decide, by decide⟩, ?_, ?_⟩
  · intro n h0 hn
    refine ⟨_, run_init_state n, ?_⟩
    intro h
    simp only [coreState, stateAfter, init, Prod.mk.injEq] at h
    obtain ⟨_, _, h3, h4, _⟩ := h
    omega
  · intro n
    refine ⟨_, _, run_init_state n, run_init_state (n + 40500), ?_, regsAfter_period n⟩
    have h1 : (n + 40500) / 9 % 6 = n / 9 % 6 := by omega
    have h2 : (n + 40500) % 9 = n % 9 := by omega
    have h3 : (n + 40500) % 750 = n % 750 := by omega
    have h4 : (n + 40500) / 750 = n / 750 + 54 := by omega
    have h5 : (n / 750 + 54) % 54 = n / 750 % 54 := by omega
    simp only [coreState, stateAfter, h1, h2, h3, h4, h5, valuesAfter_period]

/-! ### Smoothness of the wave -/

/-- C17: in the state after `n` ticks from the zero-initialised state the
brightness table is `[z, z, y, y, x, x]`, so LEDs 0 and 1, 2 and 3, 4 and 5
carry equal values, with `x` and `y` at most 1 apart and `y` and `z` at most 1
apart; and over the next tick, whether `animPulse` is called in it or not, no
brightness value moves by more than 1. -/
theorem wave_smooth (n : Nat) :
    ∃ s s' x y z, run n init = some s ∧ run (n + 1) init = some s' ∧
      s.ledValues = [z, z, y, y, x, x] ∧
      x ≤ y + 1 ∧ y ≤ x + 1 ∧ y ≤ z + 1 ∧ z ≤ y + 1 ∧
      (∀ k < 6, ∃ u w, s.ledValues[k]? = some u ∧ s'.ledValues[k]? = some w ∧
        u ≤ w + 1 ∧ w ≤ u + 1) := by
  obtain ⟨x, y, z, hform, hxy, hyx, hyz, hzy⟩ := valuesAfter_form (n / 750)
  refine ⟨_, _, x, y, z, run_init_state n, run_init_state (n + 1), hform,
    hxy, hyx, hyz, hzy, ?_⟩
  intro k hk
  show ∃ u w, (valuesAfter (n / 750))[k]? = some u ∧
    (valuesAfter ((n + 1) / 750))[k]? = some w ∧ u ≤ w + 1 ∧ w ≤ u + 1
  by_cases hf : n % 750 = 749
  · have hdiv : (n + 1) / 750 = n / 750 + 1 := by omega
    rw [hdiv]
    exact valuesAfter_step (n / 750) k hk
  · have hdiv : (n + 1) / 750 = n / 750 := by omega
    rw [hdiv]
    obtain ⟨u, _, hu, _, _, _⟩ := valuesAfter_step (n / 750) k hk
    exact ⟨u, u, hu, hu, by omega, by omega⟩

/-! ### Reset button -/

/-- C18: for flag bit numbers below 8, a flag register value below 256 and a
prior `animationNo` below 256: if `PORF` is set, `handleResetButton` leaves
`animationNo = 0` and clears `PORF` only; otherwise, if `EXTRF` is set, it
leaves `animationNo = 0` and clears `EXTRF` only; if neither is set it changes
nothing.  So when either flag is set, `animationNo < NumAnimations` after. -/
theorem reset_button (PORF EXTRF : Nat) (s : ResetState) (_hP : PORF < 8) (_hE : EXTRF < 8)
    (hr : s.RSTFLR < 256) (_ha : s.animationNo < 256) :
    (s.RSTFLR.testBit PORF = true →
      (handleResetButton PORF EXTRF s).animationNo = 0 ∧
      (handleResetButton PORF EXTRF s).RSTFLR.testBit PORF = false ∧
      ∀ b, b ≠ PORF →
        (handleResetButton PORF EXTRF s).RSTFLR.testBit b = s.RSTFLR.testBit b) ∧
    (s.RSTFLR.testBit PORF = false → s.RSTFLR.testBit EXTRF = true →
      (handleResetButton PORF EXTRF s).animationNo = 0 ∧
      (handleResetButton PORF EXTRF s).RSTFLR.testBit EXTRF = false ∧
      ∀ b, b ≠ EXTRF →
        (handleResetButton PORF EXTRF s).RSTFLR.testBit b = s.RSTFLR.testBit b) ∧
    (s.RSTFLR.testBit PORF = false → s.RSTFLR.testBit EXTRF = false →
      handleResetButton PORF EXTRF s = s) ∧
    ((s.RSTFLR.testBit PORF = true ∨ s.RSTFLR.testBit EXTRF = true) →
      (handleResetButton PORF EXTRF s).animationNo < NumAnimations) ∧
    (handleResetButton PORF EXTRF s).RSTFLR < 256 := by
  have cold : s.RSTFLR.testBit PORF = true → handleResetButton PORF EXTRF s =
      { RSTFLR := clearBit s.RSTFLR PORF, animationNo := 0 } := by
    intro h
    unfold handleResetButton
    rw [bit_is_set_eq, if_pos h]
  have warm : s.RSTFLR.testBit PORF = false → s.RSTFLR.testBit EXTRF = true →
      handleResetButton PORF EXTRF s =
        { RSTFLR := clearBit s.RSTFLR EXTRF, animationNo := 0 } := by
    intro h1 h2
    unfold handleResetButton
    rw [bit_is_set_eq, bit_is_set_eq, if_neg (by simp [h1]), if_pos h2]
    have : (if (s.animationNo + 1) % 256 ≥ NumAnimations then 0
        else (s.animationNo + 1) % 256) = 0 := by
      unfold NumAnimations; split_ifs <;> omega
    simp only [this]
  have none : s.RSTFLR.testBit PORF = false → s.RSTFLR.testBit EXTRF = false →
      handleResetButton PORF EXTRF s = s := by
    intro h1 h2
    unfold handleResetButton
    rw [bit_is_set_eq, bit_is_set_eq, if_neg (by simp [h1]), if_neg (by simp [h2])]
  have hclr : ∀ p, clearBit s.RSTFLR p < 256 := by
    intro p; unfold clearBit; omega
  refine ⟨?_, ?_, none, ?_, ?_⟩
  · intro h
    rw [cold h]
    refine ⟨rfl, ?_, ?_⟩
    · show (clearBit s.RSTFLR PORF).testBit PORF = false
      rw [clearBit_testBit _ _ _ hr]; simp
    · intro b hb
      show (clearBit s.RSTFLR PORF).testBit b = _
      rw [clearBit_testBit _ _ _ hr]; simp [hb]
  · intro h1 h2
    rw [warm h1 h2]
    refine ⟨rfl, ?_, ?_⟩
    · show (clearBit s.RSTFLR EXTRF).testBit EXTRF = false
      rw [clearBit_testBit _ _ _ hr]; simp
    · intro b hb
      show (clearBit s.RSTFLR EXTRF).testBit b = _
      rw [clearBit_testBit _ _ _ hr]; simp [hb]
  · intro h
    by_cases h1 : s.RSTFLR.testBit PORF = true
    · rw [cold h1]; show 0 < NumAnimations; decide
    · have h1' : s.RSTFLR.testBit PORF = false := by simpa using h1
      have h2 : s.RSTFLR.testBit EXTRF = true := by
        rcases h with h | h
        · exact absurd h h1
        · exact h
      rw [warm h1' h2]; show 0 < NumAnimations; decide
  · by_cases h1 : s.RSTFLR.testBit PORF = true
    · rw [cold h1]; exact hclr _
    · have h1' : s.RSTFLR.testBit PORF = false := by simpa using h1
      by_cases h2 : s.RSTFLR.testBit EXTRF = true
      · rw [warm h1' h2]; exact hclr _
      · rw [none h1' (by simpa using h2)]; exact hr

/-- A warm boot with `PORF = 0`, `EXTRF = 1`, only the external-reset flag set
and the selector at 255, where the 8-bit increment wraps. -/
theorem reset_button_witness :
    handleResetButton 0 1 { RSTFLR := 2, animationNo := 255 }
      = { RSTFLR := 0, animationNo := 0 } ∧
    ((Nat.testBit 2 0 = true →
      (handleResetButton 0 1 { RSTFLR := 2, animationNo := 255 }).animationNo = 0 ∧
      (handleResetButton 0 1 { RSTFLR := 2, animationNo := 255 }).RSTFLR.testBit 0 = false ∧
      ∀ b, b ≠ 0 →
        (handleResetButton 0 1 { RSTFLR := 2, animationNo := 255 }).RSTFLR.testBit b
          = Nat.testBit 2 b) ∧
    (Nat.testBit 2 0 = false → Nat.testBit 2 1 = true →
      (handleResetButton 0 1 { RSTFLR := 2, animationNo := 255 }).animationNo = 0 ∧
      (handleResetButton 0 1 { RSTFLR := 2, animationNo := 255 }).RSTFLR.testBit 1 = false ∧
      ∀ b, b ≠ 1 →
        (handleResetButton 0 1 { RSTFLR := 2, animationNo := 255 }).RSTFLR.testBit b
          = Nat.testBit 2 b) ∧
    (Nat.testBit 2 0 = false → Nat.testBit 2 1 = false →
      handleResetButton 0 1 { RSTFLR := 2, animationNo := 255 }
        = { RSTFLR := 2, animationNo := 255 }) ∧
    ((Nat.testBit 2 0 = true ∨ Nat.testBit 2 1 = true) →
      (handleResetButton 0 1 { RSTFLR := 2, animationNo := 255 }).animationNo
        < NumAnimations) ∧
    (handleResetButton 0 1 { RSTFLR := 2, animationNo := 255 }).RSTFLR < 256) :=
  ⟨by decide,
    reset_button 0 1 { RSTFLR := 2, animationNo := 255 } (by decide) (by decide)
      (by decide) (by decide)⟩

end Pendant
